import Mathlib

/-!
Verification development for the ShopBot repository.

The development shallowly embeds the retry utility
(src/infra/utils/retry.ts), the hybrid item-lookup tool
(src/infra/tools/item-lookup.ts) and the workflow-graph routing of
src/infra/agent.ts, and proves the specification claims about them.
External collaborators (the embedding backend, the Mongo collection and
its case-insensitive regex matcher) are parameters of the embedding;
each model function additionally records a trace of the backend calls it
makes, so that call-count and argument-passing claims are statable.
-/

namespace ShopBot

/-! ## Backoff retrier, from src/infra/utils/retry.ts (identical copy in
src/infra/agent.ts).

The JS operation is a zero-argument stateful thunk; it is modelled as an
oracle from the 1-based attempt number to that attempt's outcome. A JS
error value is modelled by its optional numeric status and its message. -/

structure RetryableError where
  status : Option Int
  msg : String
deriving DecidableEq, Repr

/-- Constant 1000 in Math.min(1000 * Math.pow(2, attempt), 30000). -/
def baseDelayMs : Nat := 1000

/-- Constant 30000 in Math.min(1000 * Math.pow(2, attempt), 30000). -/
def maxDelayMs : Nat := 30000

/-- The delay computed before the retry that follows failing attempt number
attempt: Math.min(1000 * Math.pow(2, attempt), 30000). -/
def backoffDelay (attempt : Nat) : Nat :=
  min (baseDelayMs * 2 ^ attempt) maxDelayMs

/-- Outcome of retryWithBackoff, distinguishing the two throw sites of the
source: rethrowing the error caught from the operation (the throw inside the
catch block), versus the generic Error("Max retries exceeded") thrown after
the loop exits. -/
inductive RetryOutcome (T : Type) where
  | ok (v : T)
  | rethrown (e : RetryableError)
  | exhausted
deriving DecidableEq, Repr

/-- Result of a retryWithBackoff run together with its observable trace: how
many times the operation was invoked, and the list of backoff delays that
were awaited (in order). -/
structure RetryTrace (T : Type) where
  result : RetryOutcome T
  attemptsMade : Nat
  delays : List Nat
deriving DecidableEq, Repr

/-- The retry loop. remaining counts the iterations the for-loop has left,
so that at attempt number attempt with remaining = r + 1 the source guard
attempt < maxRetries is exactly r ≠ 0. -/
def retryAux {T : Type} (fn : Nat → Except RetryableError T) (attempt : Nat) :
    Nat → RetryTrace T
  | 0 => ⟨.exhausted, 0, []⟩
  | r + 1 =>
    match fn attempt with
    | .ok v => ⟨.ok v, 1, []⟩
    | .error e =>
      if e.status = some 429 ∧ r ≠ 0 then
        let rest := retryAux fn (attempt + 1) r
        ⟨rest.result, rest.attemptsMade + 1, backoffDelay attempt :: rest.delays⟩
      else ⟨.rethrown e, 1, []⟩

/-- retryWithBackoff(fn, maxRetries): run the loop from attempt 1; the loop
body executes max(maxRetries, 0) times. maxRetries is an Int because the JS
parameter is an arbitrary number. -/
def retryWithBackoff {T : Type} (fn : Nat → Except RetryableError T)
    (maxRetries : Int) : RetryTrace T :=
  retryAux fn 1 maxRetries.toNat

/-! ### Retry lemmas -/

/-- If every attempt fails with status 429, the loop consumes all remaining
iterations and rethrows the error of the final attempt. -/
theorem retryAux_all429 {T : Type} (fn : Nat → Except RetryableError T)
    (h : ∀ a, ∃ e, fn a = .error e ∧ e.status = some 429) :
    ∀ r, 1 ≤ r → ∀ attempt, ∃ e, fn (attempt + r - 1) = .error e ∧
      (retryAux fn attempt r).result = .rethrown e ∧
      (retryAux fn attempt r).attemptsMade = r := by
  intro r
  induction r with
  | zero => intro hr; omega
  | succ r ih =>
    intro _ attempt
    obtain ⟨e, he, hs⟩ := h attempt
    by_cases hr : r = 0
    · subst hr
      refine ⟨e, by simpa using he, ?_, ?_⟩
      · simp [retryAux, he, hs]
      · simp [retryAux, he, hs]
    · obtain ⟨e', he', h1, h2⟩ := ih (by omega) (attempt + 1)
      refine ⟨e', ?_, ?_, ?_⟩
      · have harith : attempt + (r + 1) - 1 = attempt + 1 + r - 1 := by omega
        rw [harith]; exact he'
      · simpa [retryAux, he, hs, hr] using h1
      · simpa [retryAux, he, hs, hr] using h2

/-- With at least one iteration remaining, the loop never reaches the
post-loop generic error. -/
theorem retryAux_ne_exhausted {T : Type} (fn : Nat → Except RetryableError T) :
    ∀ r, 1 ≤ r → ∀ attempt,
      (retryAux fn attempt r).result ≠ RetryOutcome.exhausted := by
  intro r
  induction r with
  | zero => intro hr; omega
  | succ r ih =>
    intro _ attempt
    rcases he : fn attempt with e | v
    · by_cases hc : e.status = some 429 ∧ r ≠ 0
      · have h1 := ih (by omega) (attempt + 1)
        simpa [retryAux, he, hc] using h1
      · simp [retryAux, he, hc]
    · simp [retryAux, he]

/-- If the attempts from attempt to attempt + k - 1 all fail with status 429
and attempt number attempt + k succeeds, and more than k iterations remain,
the loop returns the success after k + 1 attempts, having awaited exactly
the k backoff delays of the failing attempts. -/
theorem retryAux_succeeds_after {T : Type} (fn : Nat → Except RetryableError T)
    (v : T) :
    ∀ k attempt r,
      (∀ a, attempt ≤ a → a < attempt + k →
        ∃ e, fn a = .error e ∧ e.status = some 429) →
      fn (attempt + k) = .ok v → k < r →
      retryAux fn attempt r =
        ⟨.ok v, k + 1, (List.range k).map (fun i => backoffDelay (attempt + i))⟩ := by
  intro k
  induction k with
  | zero =>
    intro attempt r _ hok hr
    obtain ⟨r', rfl⟩ : ∃ r', r = r' + 1 := ⟨r - 1, by omega⟩
    have he : fn attempt = .ok v := by simpa using hok
    simp [retryAux, he]
  | succ k ih =>
    intro attempt r hfail hok hr
    obtain ⟨r', rfl⟩ : ∃ r', r = r' + 1 := ⟨r - 1, by omega⟩
    obtain ⟨e, he, hs⟩ := hfail attempt (le_refl _) (by omega)
    have hr' : r' ≠ 0 := by omega
    have hrec := ih (attempt + 1) r'
      (fun a ha1 ha2 => hfail a (by omega) (by omega))
      (by have : attempt + 1 + k = attempt + (k + 1) := by omega
          rw [this]; exact hok)
      (by omega)
    have hlist : (List.range (k + 1)).map (fun i => backoffDelay (attempt + i)) =
        backoffDelay attempt ::
          (List.range k).map (fun i => backoffDelay (attempt + 1 + i)) := by
      simp only [List.range_succ_eq_map, List.map_cons, List.map_map, Nat.add_zero]
      congr 1
      exact List.map_congr_left (fun i _ => by
        simp only [Function.comp_apply]
        exact congrArg backoffDelay (by omega))
    rw [show retryAux fn attempt (r' + 1) =
          ⟨(retryAux fn (attempt + 1) r').result,
           (retryAux fn (attempt + 1) r').attemptsMade + 1,
           backoffDelay attempt :: (retryAux fn (attempt + 1) r').delays⟩ from by
        simp [retryAux, he, hs, hr'],
      hrec, hlist]

/-- backoffDelay is monotone in the attempt number. -/
theorem backoffDelay_mono {a b : Nat} (h : a ≤ b) :
    backoffDelay a ≤ backoffDelay b := by
  unfold backoffDelay
  exact min_le_min (Nat.mul_le_mul_left _ (Nat.pow_le_pow_right (by norm_num) h))
    (le_refl _)

/-- backoffDelay never exceeds the 30000 ms cap. -/
theorem backoffDelay_le_max (a : Nat) : backoffDelay a ≤ maxDelayMs :=
  min_le_right _ _

/-! ## Hybrid item-lookup tool, from src/infra/tools/item-lookup.ts
(identical inline copy in src/infra/agent.ts).

A catalog item carries the four textual fields the keyword fallback
queries; the remaining catalog fields (brand, prices, reviews, ...) are
never read by the tool and are omitted. The vector store and Mongo find
call are external collaborators held in an environment: vectorSearch is
similaritySearchWithScore (type D stands for its document-score pairs),
regexMatchI is the Mongo case-insensitive regex test applied by the
find filter, and findFault is the exception the find call raises, if
any. -/

structure Item where
  item_name : String
  item_description : String
  categories : List String
  embedding_text : String
deriving DecidableEq, Repr

/-- The filter of the fallback find call: an or over case-insensitive
regex matches on item_name, item_description, categories (an array field
matches when any element does) and embedding_text. -/
def matchesItem (regexMatchI : String → String → Bool) (query : String)
    (it : Item) : Bool :=
  regexMatchI query it.item_name ||
  regexMatchI query it.item_description ||
  it.categories.any (fun c => regexMatchI query c) ||
  regexMatchI query it.embedding_text

/-- Mongo cursor limit(n): n = 0 means no limit, and a negative n acts
like its absolute value. -/
def mongoLimit {α : Type} (n : Int) (xs : List α) : List α :=
  if n = 0 then xs else xs.take n.natAbs

/-- The external collaborators of one tool invocation. -/
structure Env (D : Type) where
  catalog : List Item
  vectorSearch : String → Int → Except RetryableError (List D)
  regexMatchI : String → String → Bool
  findFault : Option RetryableError

/-- The successful result envelope: results (vector documents on the
left, keyword documents on the right), the searchType tag, the echoed
query and the count field. -/
structure SuccessEnvelope (D : Type) where
  results : List (D ⊕ Item)
  searchType : String
  query : String
  count : Nat
deriving DecidableEq, Repr

/-- The three JSON envelopes the tool can return: the empty-inventory
envelope, the success envelope, and the caught-exception envelope. -/
inductive LookupOutput (D : Type) where
  | emptyDb (error message : String) (count : Nat)
  | found (e : SuccessEnvelope D)
  | searchFailure (error details query : String)
deriving DecidableEq, Repr

/-- The returned envelope together with the observable backend trace:
how many vector searches and keyword find calls ran, and the n argument
each received. -/
structure LookupTrace (D : Type) where
  output : LookupOutput D
  vectorCalls : Nat
  keywordCalls : Nat
  vectorNArg : Option Int
  limitNArg : Option Int
deriving DecidableEq, Repr

/-- The tool body of createItemLookupTool: countDocuments short-circuit,
vector search, zero-result keyword fallback, and the surrounding catch
that converts any exception of either search path into the failure
envelope. -/
def itemLookup {D : Type} (env : Env D) (query : String) (n : Int) :
    LookupTrace D :=
  if env.catalog.length = 0 then
    { output := .emptyDb "No items found in inventory"
        "The inventory database appears to be empty" 0,
      vectorCalls := 0, keywordCalls := 0, vectorNArg := none, limitNArg := none }
  else
    match env.vectorSearch query n with
    | .error e =>
      { output := .searchFailure "Failed to search inventory" e.msg query,
        vectorCalls := 1, keywordCalls := 0, vectorNArg := some n, limitNArg := none }
    | .ok result =>
      if result.length = 0 then
        match env.findFault with
        | some e =>
          { output := .searchFailure "Failed to search inventory" e.msg query,
            vectorCalls := 1, keywordCalls := 1, vectorNArg := some n,
            limitNArg := some n }
        | none =>
          let textResults :=
            mongoLimit n (env.catalog.filter (matchesItem env.regexMatchI query))
          { output := .found ⟨textResults.map Sum.inr, "text", query,
              textResults.length⟩,
            vectorCalls := 1, keywordCalls := 1, vectorNArg := some n,
            limitNArg := some n }
      else
        { output := .found ⟨result.map Sum.inl, "vector", query, result.length⟩,
          vectorCalls := 1, keywordCalls := 0, vectorNArg := some n,
          limitNArg := none }

/-! ## Workflow graph, from src/infra/agent.ts.

The routing function shouldContinue and the recursionLimit constant are
taken from the source; the graph interpreter itself lives in the
external graph-orchestration library. -/

/-- One tool invocation request carried by an assistant message. -/
structure ToolCall where
  name : String
  args : String
  id : String
deriving DecidableEq, Repr

/-- A conversation message: its content and, for assistant messages, the
optional tool_calls array. -/
structure Msg where
  content : String
  tool_calls : Option (List ToolCall)
deriving DecidableEq, Repr

/-- shouldContinue of src/infra/agent.ts: read the last message, default
its tool_calls to the empty array, and route to the tools node exactly
when it is non-empty. The source would throw on an empty message list;
that case is unreachable in a run and modelled as ending. -/
def shouldContinue (messages : List Msg) : String :=
  match messages.getLast? with
  | some lastMessage =>
    if (lastMessage.tool_calls.getD []).length > 0 then "tools" else "__end__"
  | none => "__end__"

/-- The recursionLimit value passed to the graph invoke call in
src/infra/agent.ts. -/
def recursionLimit : Nat := 15

/-- Result of a workflow run: the final message list with the number of
generation entries, or the recursion-limit failure, again with the
number of generation entries performed. -/
inductive RunResult where
  | done (messages : List Msg) (genEntries : Nat)
  | recursionLimitExceeded (genEntries : Nat)
deriving DecidableEq, Repr

/-- Number of generation entries a run performed. -/
def RunResult.genEntries : RunResult → Nat
  | .done _ g => g
  | .recursionLimitExceeded g => g

/-- Modelled from the spec: the StateGraph invoke loop is code of the
external graph-orchestration library, not of src/; section 4.4 of the
spec describes it as a state machine in which each entry of the
generation state runs the backend, appends the produced assistant
message, routes via the conditional edge, appends the tool-result
messages on the tools edge, and in which a step counter bounds the
number of generation entries by the recursion ceiling, failing with
RecursionLimitExceeded when the ceiling would be exceeded. The routing
decision is the shouldContinue function of the source; remaining counts
the generation entries still allowed. -/
def runAux (backend : List Msg → Msg) (toolExec : Msg → List Msg)
    (msgs : List Msg) (genEntries : Nat) : Nat → RunResult
  | 0 => .recursionLimitExceeded genEntries
  | r + 1 =>
    let m := backend msgs
    let msgs' := msgs ++ [m]
    if shouldContinue msgs' = "tools" then
      runAux backend toolExec (msgs' ++ toolExec m) (genEntries + 1) r
    else
      .done msgs' (genEntries + 1)

/-- A full run: start from the user message in the generation state with
the configured recursion ceiling. -/
def runGraph (backend : List Msg → Msg) (toolExec : Msg → List Msg)
    (userMsg : Msg) : RunResult :=
  runAux backend toolExec [userMsg] 0 recursionLimit

/-! ### Workflow lemmas -/

/-- The run never performs more generation entries than it has left. -/
theorem runAux_genEntries_le (backend : List Msg → Msg)
    (toolExec : Msg → List Msg) :
    ∀ r g msgs, (runAux backend toolExec msgs g r).genEntries ≤ g + r := by
  intro r
  induction r with
  | zero => intro g msgs; simp [runAux, RunResult.genEntries]
  | succ r ih =>
    intro g msgs
    by_cases hc : shouldContinue (msgs ++ [backend msgs]) = "tools"
    · have := ih (g + 1) (msgs ++ [backend msgs] ++ toolExec (backend msgs))
      simp only [runAux, hc, if_true]
      omega
    · simp [runAux, hc, RunResult.genEntries]

/-- With a backend whose every message requests a tool, the run consumes
all remaining generation entries and fails. -/
theorem runAux_always_tool (backend : List Msg → Msg)
    (toolExec : Msg → List Msg)
    (h : ∀ ms, ((backend ms).tool_calls.getD []).length > 0) :
    ∀ r g msgs, runAux backend toolExec msgs g r =
      .recursionLimitExceeded (g + r) := by
  intro r
  induction r with
  | zero => intro g msgs; simp [runAux]
  | succ r ih =>
    intro g msgs
    have hlast : (msgs ++ [backend msgs]).getLast? = some (backend msgs) :=
      List.getLast?_concat _
    have hc : shouldContinue (msgs ++ [backend msgs]) = "tools" := by
      unfold shouldContinue
      rw [hlast]
      simp [h msgs]
    rw [show runAux backend toolExec msgs g (r + 1) =
          runAux backend toolExec
            (msgs ++ [backend msgs] ++ toolExec (backend msgs)) (g + 1) r from by
        simp [runAux, hc],
      ih (g + 1) _]
    congr 1
    omega

/-! ## Concrete fixtures used by witnesses and counterexamples -/

/-- A rate-limit error value (status 429). -/
def rateErr : RetryableError := ⟨some 429, "Too Many Requests"⟩

/-- An operation failing with status 429 on every attempt. -/
def fnAlways429 : Nat → Except RetryableError Nat := fun _ => .error rateErr

/-- An operation failing with status 429 on attempt 1 and succeeding with 7
from attempt 2 on. -/
def fnOnce429 : Nat → Except RetryableError Nat :=
  fun a => if a ≤ 1 then .error rateErr else .ok 7

/-- An operation that succeeds immediately with 0. -/
def fnOk : Nat → Except RetryableError Nat := fun _ => .ok 0

/-- A sample catalog item. -/
def oakTable : Item :=
  ⟨"Oak Table", "A solid oak dining table", ["tables", "dining"],
   "Oak Table A solid oak dining table"⟩

/-- A case-insensitive substring matcher, standing in for the Mongo regex
test in concrete environments (any Boolean function is admissible there). -/
def substrCI (pat s : String) : Bool :=
  2 ≤ ((s.toLower).splitOn pat.toLower).length || pat = ""

/-- Environment whose vector search finds one document with score slot 5. -/
def envVecHit : Env Nat :=
  ⟨[oakTable], fun _ _ => .ok [5], substrCI, none⟩

/-- Environment whose vector search returns zero results. -/
def envVecEmpty : Env Nat :=
  ⟨[oakTable], fun _ _ => .ok [], substrCI, none⟩

/-- Environment whose vector search raises. -/
def envVecFail : Env Nat :=
  ⟨[oakTable], fun _ _ => .error rateErr, substrCI, none⟩

/-- Environment over an empty catalog. -/
def envEmptyCat : Env Nat :=
  ⟨[], fun _ _ => .ok [], substrCI, none⟩

/-- A backend message that always requests the item_lookup tool. -/
def toolRequestMsg : Msg := ⟨"", some [⟨"item_lookup", "oak table", "call_1"⟩]⟩

/-- A backend that requests a tool on every generation. -/
def alwaysToolBackend : List Msg → Msg := fun _ => toolRequestMsg

/-- A tool executor producing one tool-result message. -/
def stubToolExec : Msg → List Msg := fun _ => [⟨"tool result", none⟩]

/-! ## Claims -/

/-- Claim C1, counterexample. The claim states that exhausting all
maxAttempts attempts on rate-limit failures fails with a RetriesExhausted
error wrapping the last underlying failure, rather than rethrowing the
underlying failure itself. On an operation failing with status 429 on every
attempt and maxRetries = 3, the source makes 3 attempts and then rethrows
the caught underlying error itself (the throw inside the catch block); no
wrapping error exists in the source, and the post-loop generic error is not
reached. -/
theorem c1_counterexample :
    retryWithBackoff fnAlways429 3 =
      ⟨.rethrown rateErr, 3, [backoffDelay 1, backoffDelay 2]⟩ := by
  decide

/-- Claim C1, amended: for every operation failing with a rate-limit
classification on every one of maxRetries ≥ 1 attempts, retryWithBackoff
makes exactly maxRetries attempts and then fails by rethrowing the last
underlying failure itself; no wrapping error is produced. -/
theorem c1_retries_exhausted_rethrows {T : Type}
    (fn : Nat → Except RetryableError T) (m : Int) (hm : 1 ≤ m)
    (h : ∀ a, ∃ e, fn a = .error e ∧ e.status = some 429) :
    ∃ e, fn m.toNat = .error e ∧
      (retryWithBackoff fn m).result = .rethrown e ∧
      (retryWithBackoff fn m).attemptsMade = m.toNat := by
  obtain ⟨e, he, h1, h2⟩ :=
    retryAux_all429 fn h m.toNat (by omega) 1
  refine ⟨e, ?_, h1, h2⟩
  have harith : 1 + m.toNat - 1 = m.toNat := by omega
  rwa [harith] at he

/-- Claim C1, witness for the amended theorem at fnAlways429 and
maxRetries = 3. -/
theorem c1_witness :
    ∃ e, fnAlways429 (3 : Int).toNat = .error e ∧
      (retryWithBackoff fnAlways429 3).result = .rethrown e ∧
      (retryWithBackoff fnAlways429 3).attemptsMade = (3 : Int).toNat :=
  c1_retries_exhausted_rethrows fnAlways429 3 (by decide)
    (fun _ => ⟨rateErr, rfl, rfl⟩)

/-- Claim C7: for every operation failing with a rate-limit classification
on exactly the first k attempts, k + 1 ≤ maxRetries, and succeeding on
attempt k + 1, retryWithBackoff returns the success value after exactly
k + 1 attempts, the k awaited delays being
min(baseDelayMs * 2 ^ attempt, maxDelayMs) for the failing attempt numbers
1..k, a sequence that is non-decreasing and capped at maxDelayMs. -/
theorem c7_retry_success {T : Type} (fn : Nat → Except RetryableError T)
    (v : T) (k : Nat) (m : Int)
    (hk : ∀ a, 1 ≤ a → a ≤ k → ∃ e, fn a = .error e ∧ e.status = some 429)
    (hv : fn (k + 1) = .ok v) (hm : (k : Int) + 1 ≤ m) :
    (retryWithBackoff fn m).result = .ok v ∧
    (retryWithBackoff fn m).attemptsMade = k + 1 ∧
    (retryWithBackoff fn m).delays =
      (List.range k).map (fun i => backoffDelay (1 + i)) ∧
    (retryWithBackoff fn m).delays.length = k ∧
    List.Pairwise (· ≤ ·) (retryWithBackoff fn m).delays ∧
    ∀ d ∈ (retryWithBackoff fn m).delays, d ≤ maxDelayMs := by
  have hrun : retryWithBackoff fn m =
      ⟨.ok v, k + 1, (List.range k).map (fun i => backoffDelay (1 + i))⟩ := by
    unfold retryWithBackoff
    exact retryAux_succeeds_after fn v k 1 m.toNat
      (fun a ha1 ha2 => hk a ha1 (by omega))
      (by rwa [show 1 + k = k + 1 from by omega])
      (by omega)
  rw [hrun]
  refine ⟨rfl, rfl, rfl, by simp, ?_, ?_⟩
  · exact (List.pairwise_lt_range k).map _
      (fun a b hab => backoffDelay_mono (by omega))
  · intro d hd
    obtain ⟨i, _, rfl⟩ := List.mem_map.mp hd
    exact backoffDelay_le_max _

/-- Claim C7, witness at fnOnce429 (k = 1 rate-limit failure, then success
with 7) and maxRetries = 3. -/
theorem c7_witness :
    (retryWithBackoff fnOnce429 3).result = .ok 7 ∧
    (retryWithBackoff fnOnce429 3).attemptsMade = 1 + 1 ∧
    (retryWithBackoff fnOnce429 3).delays =
      (List.range 1).map (fun i => backoffDelay (1 + i)) ∧
    (retryWithBackoff fnOnce429 3).delays.length = 1 ∧
    List.Pairwise (· ≤ ·) (retryWithBackoff fnOnce429 3).delays ∧
    ∀ d ∈ (retryWithBackoff fnOnce429 3).delays, d ≤ maxDelayMs :=
  c7_retry_success fnOnce429 7 1 3
    (fun a _ ha2 => ⟨rateErr, by simp [fnOnce429, ha2], rfl⟩)
    rfl (by decide)

/-- Claim C10: for maxRetries < 1 the loop body never runs, so the
operation is never invoked and the run fails with the post-loop generic
Error("Max retries exceeded"); and that generic error is producible only
this way, since for maxRetries ≥ 1 a failing final attempt rethrows the
underlying error before the loop exit is reached. -/
theorem c10_exhausted_only_without_attempts {T : Type}
    (fn : Nat → Except RetryableError T) (m : Int) :
    (m < 1 → retryWithBackoff fn m = ⟨.exhausted, 0, []⟩) ∧
    ((retryWithBackoff fn m).result = .exhausted → m < 1) := by
  constructor
  · intro h
    unfold retryWithBackoff
    rw [show m.toNat = 0 from by omega]
    rfl
  · intro h
    by_contra hm
    exact retryAux_ne_exhausted fn m.toNat (by omega) 1 h

/-- Claim C10, witness at maxRetries = 0: the operation is never invoked,
and the conclusion that the generic error implies maxRetries < 1 holds at
this run. -/
theorem c10_witness :
    retryWithBackoff fnOk 0 = ⟨.exhausted, 0, []⟩ ∧ (0 : Int) < 1 :=
  ⟨(c10_exhausted_only_without_attempts fnOk 0).1 (by decide),
   (c10_exhausted_only_without_attempts fnOk 0).2 rfl⟩

/-! ### Case equations for itemLookup -/

/-- Branch equation: vector search raised. -/
theorem itemLookup_vecError {D : Type} (env : Env D) (q : String) (n : Int)
    (e : RetryableError) (hcat : env.catalog.length ≠ 0)
    (hv : env.vectorSearch q n = .error e) :
    itemLookup env q n =
      ⟨.searchFailure "Failed to search inventory" e.msg q, 1, 0, some n, none⟩ := by
  unfold itemLookup
  rw [if_neg hcat, hv]

/-- Branch equation: vector search returned a non-empty result list. -/
theorem itemLookup_vecHit {D : Type} (env : Env D) (q : String) (n : Int)
    (result : List D) (hcat : env.catalog.length ≠ 0)
    (hv : env.vectorSearch q n = .ok result) (hz : result.length ≠ 0) :
    itemLookup env q n =
      ⟨.found ⟨result.map Sum.inl, "vector", q, result.length⟩,
       1, 0, some n, none⟩ := by
  unfold itemLookup
  rw [if_neg hcat, hv]
  dsimp only
  rw [if_neg hz]

/-- Branch equation: vector search returned zero results and the fallback
find call raised. -/
theorem itemLookup_fallbackFault {D : Type} (env : Env D) (q : String)
    (n : Int) (e : RetryableError) (hcat : env.catalog.length ≠ 0)
    (hv : env.vectorSearch q n = .ok []) (hf : env.findFault = some e) :
    itemLookup env q n =
      ⟨.searchFailure "Failed to search inventory" e.msg q, 1, 1, some n, some n⟩ := by
  unfold itemLookup
  rw [if_neg hcat, hv]
  dsimp only [List.length_nil]
  rw [if_pos rfl, hf]

/-- Branch equation: vector search returned zero results and the fallback
find call ran. -/
theorem itemLookup_fallback {D : Type} (env : Env D) (q : String) (n : Int)
    (hcat : env.catalog.length ≠ 0) (hv : env.vectorSearch q n = .ok [])
    (hf : env.findFault = none) :
    itemLookup env q n =
      ⟨.found ⟨(mongoLimit n (env.catalog.filter
          (matchesItem env.regexMatchI q))).map Sum.inr, "text", q,
        (mongoLimit n (env.catalog.filter
          (matchesItem env.regexMatchI q))).length⟩,
       1, 1, some n, some n⟩ := by
  unfold itemLookup
  rw [if_neg hcat, hv]
  dsimp only [List.length_nil]
  rw [if_pos rfl, hf]

/-- Claim C2: over a non-empty catalog, every successful lookup envelope
has count equal to the length of its results, a searchType that is the
vector tag or the text tag (the names the spec calls semantic and
keyword), the vector tag coming from the vector path and the text tag
exactly from the fallback. -/
theorem c2_envelope_count_and_tag {D : Type} (env : Env D) (q : String)
    (n : Int) (hcat : env.catalog.length ≠ 0) (s : SuccessEnvelope D)
    (hout : (itemLookup env q n).output = .found s) :
    s.count = s.results.length ∧
    (s.searchType = "vector" ∨ s.searchType = "text") ∧
    (s.searchType = "text" ↔ (itemLookup env q n).keywordCalls = 1) := by
  rcases hv : env.vectorSearch q n with e | result
  · rw [itemLookup_vecError env q n e hcat hv] at hout
    cases hout
  · by_cases hz : result.length = 0
    · have hnil : result = [] := List.length_eq_zero.mp hz
      subst hnil
      rcases hf : env.findFault with _ | e
      · rw [itemLookup_fallback env q n hcat hv hf] at hout ⊢
        simp only [LookupOutput.found.injEq] at hout
        subst hout
        simp
      · rw [itemLookup_fallbackFault env q n e hcat hv hf] at hout
        cases hout
    · rw [itemLookup_vecHit env q n result hcat hv hz] at hout ⊢
      simp only [LookupOutput.found.injEq] at hout
      subst hout
      simp

/-- Claim C2, witness over envVecHit whose vector search finds one
document. -/
theorem c2_witness :
    (⟨[Sum.inl 5], "vector", "oak", 1⟩ : SuccessEnvelope Nat).count =
      (⟨[Sum.inl 5], "vector", "oak", 1⟩ : SuccessEnvelope Nat).results.length ∧
    ((⟨[Sum.inl 5], "vector", "oak", 1⟩ : SuccessEnvelope Nat).searchType = "vector" ∨
      (⟨[Sum.inl 5], "vector", "oak", 1⟩ : SuccessEnvelope Nat).searchType = "text") ∧
    ((⟨[Sum.inl 5], "vector", "oak", 1⟩ : SuccessEnvelope Nat).searchType = "text" ↔
      (itemLookup envVecHit "oak" 10).keywordCalls = 1) :=
  c2_envelope_count_and_tag envVecHit "oak" 10 (by decide)
    ⟨[Sum.inl 5], "vector", "oak", 1⟩ rfl

/-- Claim C4: over a non-empty catalog, when the vector search succeeds
the keyword fallback runs exactly once if and only if the vector search
returned zero entries; when it runs without a find fault, the envelope is
the text-tagged success whose results are the catalog items matching the
case-insensitive pattern on the four queried fields, cut by the Mongo
limit, with at most n entries when 1 ≤ n — also when that filter is
empty. -/
theorem c4_keyword_fallback {D : Type} (env : Env D) (q : String) (n : Int)
    (hcat : env.catalog.length ≠ 0) (docs : List D)
    (hv : env.vectorSearch q n = .ok docs) :
    ((itemLookup env q n).keywordCalls = 1 ↔ docs = []) ∧
    (docs = [] → env.findFault = none →
      (itemLookup env q n).output =
        .found ⟨(mongoLimit n (env.catalog.filter
            (matchesItem env.regexMatchI q))).map Sum.inr, "text", q,
          (mongoLimit n (env.catalog.filter
            (matchesItem env.regexMatchI q))).length⟩ ∧
      (1 ≤ n → (mongoLimit n (env.catalog.filter
          (matchesItem env.regexMatchI q))).length ≤ n.toNat)) := by
  have hbound : 1 ≤ n →
      (mongoLimit n (env.catalog.filter
        (matchesItem env.regexMatchI q))).length ≤ n.toNat := by
    intro hn
    unfold mongoLimit
    rw [if_neg (by omega)]
    calc (List.take n.natAbs _).length ≤ n.natAbs := by
          rw [List.length_take]; omega
      _ = n.toNat := by omega
  by_cases hz : docs = []
  · subst hz
    rcases hf : env.findFault with _ | e
    · rw [itemLookup_fallback env q n hcat hv hf]
      exact ⟨by simp, fun _ _ => ⟨rfl, hbound⟩⟩
    · rw [itemLookup_fallbackFault env q n e hcat hv hf]
      exact ⟨by simp, fun _ hnone => by cases hnone⟩
  · rw [itemLookup_vecHit env q n docs hcat hv
      (fun h => hz (List.length_eq_zero.mp h))]
    exact ⟨by simp [hz], fun hn => absurd hn hz⟩

/-- Claim C4, witness over envVecEmpty whose vector search returns zero
entries: the fallback runs exactly once. -/
theorem c4_witness : (itemLookup envVecEmpty "oak" 10).keywordCalls = 1 :=
  (c4_keyword_fallback envVecEmpty "oak" 10 (by decide) [] rfl).1.mpr rfl

/-- Claim C5: for an empty catalog every lookup returns the
empty-inventory envelope with count 0 immediately, with zero vector
(hence zero embedding) calls and zero keyword calls. -/
theorem c5_empty_catalog_short_circuit {D : Type} (env : Env D)
    (q : String) (n : Int) (hcat : env.catalog.length = 0) :
    itemLookup env q n =
      ⟨.emptyDb "No items found in inventory"
        "The inventory database appears to be empty" 0, 0, 0, none, none⟩ := by
  unfold itemLookup
  rw [if_pos hcat]

/-- Claim C5, witness over the empty-catalog environment. -/
theorem c5_witness :
    itemLookup envEmptyCat "oak" 10 =
      ⟨.emptyDb "No items found in inventory"
        "The inventory database appears to be empty" 0, 0, 0, none, none⟩ :=
  c5_empty_catalog_short_circuit envEmptyCat "oak" 10 rfl

/-- Claim C6: every exception of either search path is caught and
converted into the failure envelope carrying the fixed error text, the
exception message as details and the echoed query; by construction of the
embedding the tool returns an envelope in every case, so no raw backend
exception escapes. -/
theorem c6_exceptions_become_envelopes {D : Type} (env : Env D)
    (q : String) (n : Int) (hcat : env.catalog.length ≠ 0) :
    (∀ e, env.vectorSearch q n = .error e →
      (itemLookup env q n).output =
        .searchFailure "Failed to search inventory" e.msg q) ∧
    (∀ e, env.vectorSearch q n = .ok [] → env.findFault = some e →
      (itemLookup env q n).output =
        .searchFailure "Failed to search inventory" e.msg q) := by
  constructor
  · intro e he
    rw [itemLookup_vecError env q n e hcat he]
  · intro e hok hf
    rw [itemLookup_fallbackFault env q n e hcat hok hf]

/-- Claim C6, witness over envVecFail whose vector search raises. -/
theorem c6_witness :
    (itemLookup envVecFail "oak" 10).output =
      .searchFailure "Failed to search inventory" rateErr.msg "oak" :=
  (c6_exceptions_become_envelopes envVecFail "oak" 10 (by decide)).1 rateErr rfl

/-- Claim C9, counterexample. The claim states that a call with a
non-positive limit is rejected or has the limit clamped to 1 before any
search, and that a non-positive limit is never passed through unchanged.
At n = 0 over a one-item catalog the source performs the vector search
and the fallback find, passing 0 unchanged as the vector search k and as
the Mongo limit argument (where limit 0 means no limit). -/
theorem c9_counterexample :
    (itemLookup envVecEmpty "oak" 0).vectorCalls = 1 ∧
    (itemLookup envVecEmpty "oak" 0).vectorNArg = some 0 ∧
    (itemLookup envVecEmpty "oak" 0).limitNArg = some 0 := by
  decide

/-- Claim C9, amended: lookup neither rejects nor clamps the limit; over a
non-empty catalog every call forwards n unchanged to the vector search,
and, whenever the keyword fallback runs, unchanged to the find limit as
well. -/
theorem c9_limit_passed_unchanged {D : Type} (env : Env D) (q : String)
    (n : Int) (hcat : env.catalog.length ≠ 0) :
    (itemLookup env q n).vectorNArg = some n ∧
    ((itemLookup env q n).keywordCalls = 1 →
      (itemLookup env q n).limitNArg = some n) := by
  rcases hv : env.vectorSearch q n with e | result
  · rw [itemLookup_vecError env q n e hcat hv]
    exact ⟨rfl, fun h => by cases h⟩
  · by_cases hz : result = []
    · subst hz
      rcases hf : env.findFault with _ | e
      · rw [itemLookup_fallback env q n hcat hv hf]
        exact ⟨rfl, fun _ => rfl⟩
      · rw [itemLookup_fallbackFault env q n e hcat hv hf]
        exact ⟨rfl, fun _ => rfl⟩
    · rw [itemLookup_vecHit env q n result hcat hv
        (fun h => hz (List.length_eq_zero.mp h))]
      exact ⟨rfl, fun h => by cases h⟩

/-- Claim C9, witness for the amended theorem at n = 0. -/
theorem c9_witness :
    (itemLookup envVecEmpty "oak" 0).vectorNArg = some 0 ∧
    ((itemLookup envVecEmpty "oak" 0).keywordCalls = 1 →
      (itemLookup envVecEmpty "oak" 0).limitNArg = some 0) :=
  c9_limit_passed_unchanged envVecEmpty "oak" 0 (by decide)

/-- Claim C3: for every backend and tool executor, a run performs at most
recursionLimit = 15 generation entries; and with a backend that requests a
tool on every generation the run terminates failing with the
recursion-limit error after exactly recursionLimit generation entries. -/
theorem c3_recursion_ceiling (backend : List Msg → Msg)
    (toolExec : Msg → List Msg) (userMsg : Msg) :
    (runGraph backend toolExec userMsg).genEntries ≤ recursionLimit ∧
    ((∀ ms, ((backend ms).tool_calls.getD []).length > 0) →
      runGraph backend toolExec userMsg =
        .recursionLimitExceeded recursionLimit) := by
  constructor
  · have := runAux_genEntries_le backend toolExec recursionLimit 0 [userMsg]
    simpa [runGraph] using this
  · intro h
    have := runAux_always_tool backend toolExec h recursionLimit 0 [userMsg]
    simpa [runGraph] using this

/-- Claim C3, witness at the always-tool stub backend. -/
theorem c3_witness :
    (runGraph alwaysToolBackend stubToolExec ⟨"hi", none⟩).genEntries ≤
      recursionLimit ∧
    runGraph alwaysToolBackend stubToolExec ⟨"hi", none⟩ =
      .recursionLimitExceeded recursionLimit :=
  ⟨(c3_recursion_ceiling alwaysToolBackend stubToolExec ⟨"hi", none⟩).1,
   (c3_recursion_ceiling alwaysToolBackend stubToolExec ⟨"hi", none⟩).2
     (fun _ => by simp [alwaysToolBackend, toolRequestMsg])⟩

/-- Claim C8: after a generation step appends the assistant message, the
routing function sends the run to the tools node exactly when that message
carries at least one tool invocation and to the end otherwise, these two
being its only outcomes; accordingly the interpreter either executes the
tools and returns to generation, or finishes. -/
theorem c8_generation_successors (backend : List Msg → Msg)
    (toolExec : Msg → List Msg) (msgs : List Msg) (g r : Nat) :
    (shouldContinue (msgs ++ [backend msgs]) = "tools" ↔
      0 < ((backend msgs).tool_calls.getD []).length) ∧
    (shouldContinue (msgs ++ [backend msgs]) = "tools" ∨
      shouldContinue (msgs ++ [backend msgs]) = "__end__") ∧
    runAux backend toolExec msgs g (r + 1) =
      (if 0 < ((backend msgs).tool_calls.getD []).length then
        runAux backend toolExec
          (msgs ++ [backend msgs] ++ toolExec (backend msgs)) (g + 1) r
      else
        .done (msgs ++ [backend msgs]) (g + 1)) := by
  have hlast : (msgs ++ [backend msgs]).getLast? = some (backend msgs) :=
    List.getLast?_concat _
  have hsc : shouldContinue (msgs ++ [backend msgs]) =
      (if 0 < ((backend msgs).tool_calls.getD []).length then "tools"
       else "__end__") := by
    unfold shouldContinue
    rw [hlast]
  refine ⟨?_, ?_, ?_⟩
  · rw [hsc]
    by_cases hc : 0 < ((backend msgs).tool_calls.getD []).length
    · simp [hc]
    · simp [hc]
  · rw [hsc]
    by_cases hc : 0 < ((backend msgs).tool_calls.getD []).length
    · exact Or.inl (by rw [if_pos hc])
    · exact Or.inr (by rw [if_neg hc])
  · by_cases hc : 0 < ((backend msgs).tool_calls.getD []).length
    · have htools : shouldContinue (msgs ++ [backend msgs]) = "tools" := by
        rw [hsc, if_pos hc]
      simp only [runAux, htools, if_true, if_pos hc]
    · have hend : shouldContinue (msgs ++ [backend msgs]) ≠ "tools" := by
        rw [hsc, if_neg hc]
        decide
      simp only [runAux, if_neg hend, if_neg hc]

end ShopBot
